import Mathlib

/-!
Verification of the snakecharmer configuration-resolution engine.

This file is a shallow embedding of `snakecharmer.go` and its functional
options file.  Go's reflection-driven walk over the result struct is
embedded as a walk over an explicit schema tree (`Fields` / `FieldVal`);
the external collaborators (cobra's flag set, viper's layered settings
store, the file system and the process environment) are embedded as
explicit state records and parameters.  Machine integers are modelled as
`Int` / `Nat` (the engine never performs arithmetic on field values, it
only moves them between stores, so no overflow modelling is needed);
float values are carried as opaque bit patterns.  Go panics and error
returns are both modelled with `Except`.
-/

namespace Snakecharmer

/-- Whitespace test used to model Go's `strings.TrimSpace`
(ASCII subset, which covers every call site in the source). -/
def isSpaceChar (c : Char) : Bool :=
  c == ' ' || c == '\t' || c == '\n' || c == '\r'

/-- Model of `strings.TrimSpace`: drop leading and trailing whitespace. -/
def trimSpace (s : String) : String :=
  String.mk (((s.toList.dropWhile isSpaceChar).reverse.dropWhile isSpaceChar).reverse)

/-- Model of `strings.Split(fieldTag, ",")[0]` (snakecharmer.go line 223):
the segment of the tag before the first comma. -/
def firstCommaSeg (s : String) : String :=
  String.mk (s.toList.takeWhile (fun c => c != ','))

/-- Final slash-separated element of a path, as used by Go's `filepath.Ext`. -/
def lastPathElem (cs : List Char) : List Char :=
  (cs.reverse.takeWhile (fun c => c != '/')).reverse

/-- Model of `strings.TrimPrefix(filepath.Ext(path), ".")`
(snakecharmer.go line 319): the suffix after the final dot of the final
path element, or `""` when that element has no dot. -/
def fileExtOf (path : String) : String :=
  let e := lastPathElem path.toList
  if e.contains '.' then String.mk ((e.reverse.takeWhile (fun c => c != '.')).reverse)
  else ""

/-- Key prefixing from snakecharmer.go lines 225-227: the parent key is
prepended with a dot separator only when non-empty. -/
def joinKey (pfx key : String) : String :=
  if pfx.length > 0 then pfx ++ "." ++ key else key

/-- Model of `reflect.StructTag.Get`: look up a tag by name, returning
`""` when the tag is absent (Go's behaviour). -/
def tagGet (tags : List (String × String)) (name : String) : String :=
  (List.lookup name tags).getD ""

/-- Runtime value of a leaf struct field, classified the way
`applySetting` (snakecharmer.go lines 345-400) dispatches on
`reflect.Value.Kind()` and on the interface type assertions.
`vSliceOther` / `vMapOther` are slices / maps whose Go type assertion to
`[]string` / `map[string]string` fails; `vOther` is any other
unsupported kind.  `isNil` distinguishes Go's nil slice / nil map from
an allocated empty one. -/
inductive Leaf where
  | vBool (b : Bool)
  | vUint (n : Nat)
  | vInt (i : Int)
  | vFloat (bits : Nat)
  | vStr (s : String)
  | vStrSlice (isNil : Bool) (xs : List String)
  | vSliceOther (tyName : String)
  | vStrMap (isNil : Bool) (entries : List (String × String))
  | vMapOther (tyName : String)
  | vOther (kindName : String)
  deriving Repr, DecidableEq

/-- Every error and panic condition of the engine, one constructor per
distinct `fmt.Errorf` / `panic` site in the source. -/
inductive SchError where
  | nilDefault (fieldName : String)
  | invalidInput (kindName : String)
  | missingTag (fieldName : String)
  | missingHelpTag (fieldName : String)
  | invalidFlagType (tyName flagName : String)
  | invalidDefault (flagName tyName : String)
  | unsupportedFieldType (kindName : String)
  | configPathEmpty
  | configPathNotFound (path : String)
  | configPathIndeterminate (path msg : String)
  | configParseError (path : String)
  | unmarshalUnknownField (key : String)
  | decodeFailure (key : String)
  | resultStructNotSet
  | cmdNotSet
  | invalidResultStruct (tyName : String)
  | invalidTagName (s : String)
  | invalidConfigFileType (s : String)
  | invalidConfigFileBaseName (s : String)
  deriving Repr, DecidableEq

/-- One registered command-line option in cobra's persistent flag set:
its typed default, its help text, and — after flag parsing — the
explicitly passed value, if any (`pflag.Flag.Changed`). -/
structure FlagDef where
  defVal : Leaf
  help : String
  changed : Option Leaf
  deriving Repr, DecidableEq

/-- The cobra persistent flag set, keyed by flag name. -/
structure CmdState where
  flags : List (String × FlagDef)
  deriving Repr, DecidableEq

/-- The viper settings store: the layers written by the engine
(defaults, merged config file), the flag and env bindings, and the
config-file discovery settings. -/
structure ViperState where
  defaults : List (String × Leaf)
  config : List (String × Leaf)
  envBinds : List (String × String)
  pflagBinds : List String
  configFileUsed : Option String
  configTypeSet : Option String
  configPaths : List String
  configName : Option String
  deriving Repr, DecidableEq

/-- Fresh viper instance (`viper.New()`). -/
def emptyViper : ViperState := ⟨[], [], [], [], none, none, [], none⟩

/-- Fresh cobra command flag set. -/
def emptyCmd : CmdState := ⟨[]⟩

/-- Model of `pflag.FlagSet` option registration (`Bool`, `Int64`, …,
`StringToString` all register one named flag with a default and help). -/
def CmdState.addFlag (cmd : CmdState) (name : String) (v : Leaf) (help : String) : CmdState :=
  ⟨cmd.flags ++ [(name, ⟨v, help, none⟩)]⟩

/-- Model of `viper.SetDefault`. -/
def ViperState.setDefault (vpr : ViperState) (key : String) (v : Leaf) : ViperState :=
  { vpr with defaults := vpr.defaults ++ [(key, v)] }

/-- Model of `viper.BindPFlag` (the flag itself lives in `CmdState`;
viper records that the key is flag-bound). -/
def ViperState.bindPFlag (vpr : ViperState) (key : String) : ViperState :=
  { vpr with pflagBinds := vpr.pflagBinds ++ [key] }

/-- Model of `viper.BindEnv(key, env)`. -/
def ViperState.bindEnv (vpr : ViperState) (key envName : String) : ViperState :=
  { vpr with envBinds := vpr.envBinds ++ [(key, envName)] }

/-- Embedding of `(*SnakeCharmer).applySetting` (snakecharmer.go lines
345-400): dispatch on the leaf's kind, register the cobra flag and the
viper default, or fail.  Note the asymmetry faithful to the source: the
slice case checks `len(value) == 0` (line 378) while the map case checks
only `value == nil` (line 390). -/
def applySetting (rv : Leaf) (name help : String) (cmd : CmdState) (vpr : ViperState) :
    Except SchError (CmdState × ViperState) :=
  match rv with
  | .vBool b => .ok (cmd.addFlag name (.vBool b) help, vpr.setDefault name (.vBool b))
  | .vUint n => .ok (cmd.addFlag name (.vUint n) help, vpr.setDefault name (.vUint n))
  | .vInt i => .ok (cmd.addFlag name (.vInt i) help, vpr.setDefault name (.vInt i))
  | .vFloat x => .ok (cmd.addFlag name (.vFloat x) help, vpr.setDefault name (.vFloat x))
  | .vStr s => .ok (cmd.addFlag name (.vStr s) help, vpr.setDefault name (.vStr s))
  | .vStrSlice isNil xs =>
    if xs.length == 0 then .error (.invalidDefault name "[]string")
    else .ok (cmd.addFlag name (.vStrSlice isNil xs) help, vpr.setDefault name (.vStrSlice isNil xs))
  | .vSliceOther tyName => .error (.invalidFlagType tyName name)
  | .vStrMap isNil entries =>
    if isNil then .error (.invalidDefault name "map[string]string")
    else .ok (cmd.addFlag name (.vStrMap isNil entries) help, vpr.setDefault name (.vStrMap isNil entries))
  | .vMapOther tyName => .error (.invalidFlagType tyName name)
  | .vOther kindName => .error (.unsupportedFieldType kindName)

mutual
/-- The runtime value a struct field dereferences to, after the one
level of pointer / interface indirection performed at snakecharmer.go
lines 207-212: a bindable leaf, a nil pointer / interface, or a nested
struct. -/
inductive FieldVal where
  | leaf (v : Leaf)
  | nilPtr
  | struc (sub : Fields)
  deriving Repr
/-- A struct's fields in declaration order: each has a Go field name,
its raw tag set (tag name to tag string, as `reflect.StructTag` exposes
it), and its dereferenced value. -/
inductive Fields where
  | nil
  | cons (fname : String) (tags : List (String × String)) (val : FieldVal) (rest : Fields)
  deriving Repr
end

/-- The engine settings consulted by the walk: the three configurable
tag names and the untagged-field policy. -/
structure Cfg where
  fieldTagName : String
  envTagName : String
  flagHelpTagName : String
  ignoreUntaggedFields : Bool
  deriving Repr, DecidableEq

mutual
/-- Embedding of the field loop of `(*SnakeCharmer).addFlags`
(snakecharmer.go lines 204-263): process each field in declaration
order, threading the cobra and viper state. -/
def walkFields (cfg : Cfg) (fs : Fields) (pfx : String) (cmd : CmdState) (vpr : ViperState) :
    Except SchError (CmdState × ViperState) :=
  match fs with
  | .nil => .ok (cmd, vpr)
  | .cons fname tags val rest =>
    match walkField cfg fname tags val pfx cmd vpr with
    | .error e => .error e
    | .ok (c, v) => walkFields cfg rest pfx c v

/-- Embedding of one iteration of the `addFlags` loop body
(snakecharmer.go lines 204-262).  The source nil-checks the
dereferenced value (lines 207-212) before reading any tag; here that
check is the `nilPtr` branch of the outermost match, and the tag logic
(lines 214-227), which in the source is shared straight-line code, is
repeated verbatim in the `leaf` and `struc` branches — the behaviour is
identical because the source's kind dispatch (line 229) happens only
after the tag logic and the tag logic itself does not depend on the
kind. -/
def walkField (cfg : Cfg) (fname : String) (tags : List (String × String)) (val : FieldVal)
    (pfx : String) (cmd : CmdState) (vpr : ViperState) :
    Except SchError (CmdState × ViperState) :=
  match val with
  | .nilPtr => .error (.nilDefault fname)
  | .leaf lv =>
    if (tagGet tags cfg.fieldTagName).length == 0 then
      if cfg.ignoreUntaggedFields then .ok (cmd, vpr) else .error (.missingTag fname)
    else
      if (tagGet tags cfg.flagHelpTagName).length == 0 then .error (.missingHelpTag fname)
      else
        match applySetting lv (joinKey pfx (firstCommaSeg (tagGet tags cfg.fieldTagName)))
            (tagGet tags cfg.flagHelpTagName) cmd vpr with
        | .error e => .error e
        | .ok (c, v) =>
          .ok (c,
            if (tagGet tags cfg.envTagName).length > 0 then
              (v.bindPFlag (joinKey pfx (firstCommaSeg (tagGet tags cfg.fieldTagName)))).bindEnv
                (joinKey pfx (firstCommaSeg (tagGet tags cfg.fieldTagName)))
                (tagGet tags cfg.envTagName)
            else v.bindPFlag (joinKey pfx (firstCommaSeg (tagGet tags cfg.fieldTagName))))
  | .struc sub =>
    if (tagGet tags cfg.fieldTagName).length == 0 then
      if cfg.ignoreUntaggedFields then .ok (cmd, vpr) else .error (.missingTag fname)
    else
      walkFields cfg sub (joinKey pfx (firstCommaSeg (tagGet tags cfg.fieldTagName))) cmd vpr
end

/-- Classification of the `interface{}` argument of `WithResultStruct`,
following the reflection checks at options file lines 820-835: not a
pointer, a nil pointer, a pointer to a non-struct, or a pointer to a
struct (which may or may not be convertible to `time.Time`, an
attribute of its Go type carried here as a flag). -/
inductive GoArg where
  | nonPtr (tyName : String)
  | nilPtr (tyName : String)
  | ptrToNonStruct (tyName : String)
  | ptrToStruct (timeConvertible : Bool) (fields : Fields)
  deriving Repr

/-- One `viper.DecoderConfigOption` closure, classified by which
`mapstructure.DecoderConfig` field the closures appearing in the source
set. -/
inductive DecoderOpt where
  | ignoreUntagged (b : Bool)
  | tagName (s : String)
  | other
  deriving Repr, DecidableEq

/-- Deep embedding of the package's functional options: the exported
`With*` constructors are the only `CharmingOption` values the package
defines. -/
inductive CharmingOption where
  | withResultStruct (rs : GoArg)
  | withFieldTagName (s : String)
  | withEnvTagName (s : String)
  | withFlagHelpTagName (s : String)
  | withConfigFileType (s : String)
  | withConfigFilePath (s : String)
  | withConfigFileBaseName (s : String)
  | withDecoderConfigOption (o : DecoderOpt)
  | withIgnoreUntaggedFields (b : Bool)
  | withViper (v : ViperState)
  | withCobraCommand (c : CmdState)
  deriving Repr

/-- The engine instance (struct `SnakeCharmer`, snakecharmer.go lines
87-137).  `resultStruct`, `viper` and `cmd` are Go pointers that may be
unset, hence `Option`. -/
structure SnakeCharmer where
  resultStruct : Option GoArg
  fieldTagName : String
  envTagName : String
  flagHelpTagName : String
  configFileType : String
  configFilePath : String
  configFileBaseName : String
  viper : Option ViperState
  cmd : Option CmdState
  decoderConfigOptions : List DecoderOpt
  ignoreUntaggedFields : Bool

/-- The literal the constructor starts from (snakecharmer.go lines
46-53). -/
def initialCharmer : SnakeCharmer :=
  { resultStruct := none
    fieldTagName := "mapstructure"
    envTagName := "env"
    flagHelpTagName := "usage"
    configFileType := "yaml"
    configFilePath := ""
    configFileBaseName := "config"
    viper := none
    cmd := none
    decoderConfigOptions := []
    ignoreUntaggedFields := false }

/-- Modelled from the spec: the repository's `fileExtSupported` helper
is referenced by `WithConfigFileType` and `findConfigFile` but its
definition is not among the provided sources; per the spec it tests
membership in the fixed supported-format set of the settings store
(`viper.SupportedExts`). -/
def supportedExts : List String :=
  ["json", "toml", "yaml", "yml", "properties", "props", "prop",
   "hcl", "tfvars", "dotenv", "env", "ini"]

/-- Modelled from the spec: membership in the supported-format set. -/
def fileExtSupported (ext : String) : Bool :=
  supportedExts.contains ext

/-- Semantics of one functional option, from the options file (lines
820-979): each `With*` validates its argument and either records it on
the engine or returns an error. -/
def applyOption (o : CharmingOption) (sch : SnakeCharmer) : Except SchError SnakeCharmer :=
  match o with
  | .withResultStruct rs =>
    match rs with
    | .nonPtr tyName => .error (.invalidResultStruct tyName)
    | .nilPtr tyName => .error (.invalidResultStruct tyName)
    | .ptrToNonStruct tyName => .error (.invalidResultStruct tyName)
    | .ptrToStruct true _ => .error (.invalidResultStruct "time.Time")
    | .ptrToStruct false flds => .ok { sch with resultStruct := some (.ptrToStruct false flds) }
  | .withFieldTagName s =>
    let tag := trimSpace s
    if tag.length == 0 then .error (.invalidTagName s)
    else .ok { sch with fieldTagName := tag }
  | .withEnvTagName s =>
    let tag := trimSpace s
    if tag.length == 0 then .error (.invalidTagName s)
    else .ok { sch with envTagName := tag }
  | .withFlagHelpTagName s =>
    let tag := trimSpace s
    if tag.length == 0 then .error (.invalidTagName s)
    else .ok { sch with flagHelpTagName := tag }
  | .withConfigFileType s =>
    let ext := trimSpace s
    if fileExtSupported ext then .ok { sch with configFileType := ext }
    else .error (.invalidConfigFileType s)
  | .withConfigFilePath s => .ok { sch with configFilePath := trimSpace s }
  | .withConfigFileBaseName s =>
    let nm := trimSpace s
    if nm.length == 0 then .error (.invalidConfigFileBaseName s)
    else .ok { sch with configFileBaseName := nm }
  | .withDecoderConfigOption dopt =>
    .ok { sch with decoderConfigOptions := sch.decoderConfigOptions ++ [dopt] }
  | .withIgnoreUntaggedFields b =>
    .ok { sch with
          ignoreUntaggedFields := b
          decoderConfigOptions := sch.decoderConfigOptions ++ [DecoderOpt.ignoreUntagged b] }
  | .withViper v => .ok { sch with viper := some v }
  | .withCobraCommand c => .ok { sch with cmd := some c }

/-- Left fold of options over the engine, stopping at the first error
(the loop shared by the constructor and by `Set`). -/
def applyOptions (sch : SnakeCharmer) : List CharmingOption → Except SchError SnakeCharmer
  | [] => .ok sch
  | o :: rest =>
    match applyOption o sch with
    | .error e => .error e
    | .ok sch' => applyOptions sch' rest

/-- Embedding of `NewSnakeCharmer` (snakecharmer.go lines 45-72): start
from the default literal, apply the options, then require a result
struct, default the viper instance, and require a cobra command. -/
def NewSnakeCharmer (opts : List CharmingOption) : Except SchError SnakeCharmer :=
  match applyOptions initialCharmer opts with
  | .error e => .error e
  | .ok sch =>
    if sch.resultStruct.isNone then .error .resultStructNotSet
    else
      let sch := if sch.viper.isNone then { sch with viper := some emptyViper } else sch
      if sch.cmd.isNone then .error .cmdNotSet
      else .ok sch

/-- Embedding of `(*SnakeCharmer).Set` (snakecharmer.go lines 140-147). -/
def SnakeCharmer.Set (sch : SnakeCharmer) (opts : List CharmingOption) :
    Except SchError SnakeCharmer :=
  applyOptions sch opts

/-- The walk configuration an engine induces. -/
def cfgOf (sch : SnakeCharmer) : Cfg :=
  ⟨sch.fieldTagName, sch.envTagName, sch.flagHelpTagName, sch.ignoreUntaggedFields⟩

/-- Embedding of `(*SnakeCharmer).AddFlags` (snakecharmer.go lines
188-203): run the walk on the stored result struct with an empty key
prefix.  The root checks (lines 194-203) fire for a nil or non-struct
root; a missing cobra command or viper instance cannot occur after a
successful `NewSnakeCharmer` and is mapped to the corresponding
construction error. -/
def SnakeCharmer.AddFlags (sch : SnakeCharmer) : Except SchError SnakeCharmer :=
  match sch.cmd, sch.viper with
  | some cmd, some vpr =>
    match sch.resultStruct with
    | some (.ptrToStruct _ flds) =>
      match walkFields (cfgOf sch) flds "" cmd vpr with
      | .error e => .error e
      | .ok (c, v) => .ok { sch with cmd := some c, viper := some v }
    | some (.nilPtr tyName) => .error (.nilDefault tyName)
    | some (.nonPtr tyName) => .error (.invalidInput tyName)
    | some (.ptrToNonStruct tyName) => .error (.invalidInput tyName)
    | none => .error .resultStructNotSet
  | _, _ => .error .cmdNotSet

/-- Outcome of `os.Stat` on a path: the four cases `findConfigFile`
distinguishes. -/
inductive StatResult where
  | notExist
  | statError (msg : String)
  | dir
  | file
  deriving Repr, DecidableEq

/-- The ambient file system: what `os.Stat` reports per path and what
parsing a config file yields (`none` models both an unreadable file and
a parse failure, which `viper.ReadInConfig` reports as one error). -/
structure FileSystem where
  stat : String → StatResult
  read : String → Option (List (String × Leaf))

/-- Model of `viper.SetConfigFile`. -/
def ViperState.setConfigFile (vpr : ViperState) (p : String) : ViperState :=
  { vpr with configFileUsed := some p }

/-- Model of `viper.SetConfigType`. -/
def ViperState.setConfigType (vpr : ViperState) (t : String) : ViperState :=
  { vpr with configTypeSet := some t }

/-- Model of `viper.AddConfigPath` (appends to the search list). -/
def ViperState.addConfigPath (vpr : ViperState) (p : String) : ViperState :=
  { vpr with configPaths := vpr.configPaths ++ [p] }

/-- Model of `viper.SetConfigName`. -/
def ViperState.setConfigName (vpr : ViperState) (nm : String) : ViperState :=
  { vpr with configName := some nm }

/-- Embedding of `(*SnakeCharmer).findConfigFile` (snakecharmer.go
lines 306-342): classify the configured path by `os.Stat`, configure
the viper store accordingly, and translate the two stat-failure shapes
into the two distinct errors. -/
def SnakeCharmer.findConfigFile (sch : SnakeCharmer) (vpr : ViperState) (fsys : FileSystem) :
    Except SchError (Bool × ViperState) :=
  if sch.configFilePath.length == 0 then .error .configPathEmpty
  else
    match fsys.stat sch.configFilePath with
    | .dir => .ok (true, (vpr.addConfigPath sch.configFilePath).setConfigName sch.configFileBaseName)
    | .file =>
      if (fileExtOf sch.configFilePath).length == 0 then
        .ok (true, (vpr.setConfigType sch.configFileType).setConfigFile sch.configFilePath)
      else if fileExtSupported (fileExtOf sch.configFilePath) then
        .ok (true, vpr.setConfigFile sch.configFilePath)
      else
        .ok (true, (vpr.setConfigType sch.configFileType).setConfigFile sch.configFilePath)
    | .notExist => .error (.configPathNotFound sch.configFilePath)
    | .statError msg => .error (.configPathIndeterminate sch.configFilePath msg)

/-- Model of viper's directory search: try each configured path with
the configured base name and each supported extension, in order. -/
def searchExts (fsys : FileSystem) (p nm : String) :
    List String → Option (String × List (String × Leaf))
  | [] => none
  | e :: rest =>
    match fsys.read (p ++ "/" ++ nm ++ "." ++ e) with
    | some m => some (p ++ "/" ++ nm ++ "." ++ e, m)
    | none => searchExts fsys p nm rest

/-- Model of viper's search over the configured directories. -/
def searchConfig (fsys : FileSystem) (paths : List String) (nm : String) :
    Option (String × List (String × Leaf)) :=
  match paths with
  | [] => none
  | p :: rest =>
    match searchExts fsys p nm supportedExts with
    | some r => some r
    | none => searchConfig fsys rest nm

/-- Model of `viper.ReadInConfig`: read and parse the explicitly set
config file, or search the configured directories, replacing the store's
config layer with the parsed content. -/
def ViperState.readInConfig (vpr : ViperState) (fsys : FileSystem) :
    Except SchError ViperState :=
  match vpr.configFileUsed with
  | some f =>
    match fsys.read f with
    | some m => .ok { vpr with config := m }
    | none => .error (.configParseError f)
  | none =>
    match searchConfig fsys vpr.configPaths (vpr.configName.getD "") with
    | some (f, m) => .ok { vpr with configFileUsed := some f, config := m }
    | none => .error (.configPathNotFound (vpr.configName.getD ""))

/-- Embedding of `(*SnakeCharmer).mergeInConfigFile` (snakecharmer.go
lines 286-304): locate the config file, then read and merge it; any
error from location or reading is returned and nothing is merged. -/
def SnakeCharmer.mergeInConfigFile (sch : SnakeCharmer) (vpr : ViperState) (fsys : FileSystem) :
    Except SchError ViperState :=
  if sch.configFilePath.length == 0 then .error .configPathEmpty
  else
    match sch.findConfigFile vpr fsys with
    | .error e => .error e
    | .ok (found, vpr') =>
      if found then vpr'.readInConfig fsys else .ok vpr'

/-- The process environment at resolution time: variable name to value. -/
abbrev EnvMap := List (String × String)

/-- Value found by viper's layered per-key lookup: either a typed value
(flag, config or default layer) or the raw string of an environment
variable. -/
inductive FoundVal where
  | typed (v : Leaf)
  | envStr (s : String)
  deriving Repr, DecidableEq

/-- The flag layer of viper's lookup: a key bound via `BindPFlag` whose
flag was explicitly changed yields the flag's parsed value. -/
def flagChanged (vpr : ViperState) (cmd : CmdState) (key : String) : Option Leaf :=
  if vpr.pflagBinds.contains key then
    match List.lookup key cmd.flags with
    | some fd => fd.changed
    | none => none
  else none

/-- The env layer of viper's lookup: a key bound via `BindEnv` whose
variable is present and non-empty yields the raw string (viper treats an
empty value as unset unless `AllowEmptyEnv`, which the engine never
sets). -/
def envLookup (vpr : ViperState) (env : EnvMap) (key : String) : Option String :=
  match List.lookup key vpr.envBinds with
  | none => none
  | some nm =>
    match List.lookup nm env with
    | none => none
    | some s => if s.length == 0 then none else some s

/-- Model of viper's per-key layered lookup, in viper's fixed order:
changed flag, then bound environment variable, then merged config file,
then registered default. -/
def vfind (vpr : ViperState) (cmd : CmdState) (env : EnvMap) (key : String) : Option FoundVal :=
  match flagChanged vpr cmd key with
  | some v => some (.typed v)
  | none =>
    match envLookup vpr env key with
    | some s => some (.envStr s)
    | none =>
      match List.lookup key vpr.config with
      | some v => some (.typed v)
      | none =>
        match List.lookup key vpr.defaults with
        | some v => some (.typed v)
        | none => none

/-- Decimal digit value. -/
def digitVal (c : Char) : Option Nat :=
  if 48 ≤ c.toNat && c.toNat ≤ 57 then some (c.toNat - 48) else none

/-- Accumulating decimal parser over characters. -/
def parseNatAux : List Char → Nat → Option Nat
  | [], acc => some acc
  | c :: rest, acc =>
    match digitVal c with
    | some d => parseNatAux rest (acc * 10 + d)
    | none => none

/-- Parse a non-empty all-digit string as a natural number. -/
def parseNatStr (s : String) : Option Nat :=
  match s.toList with
  | [] => none
  | cs => parseNatAux cs 0

/-- Parse an optionally negated decimal integer. -/
def parseIntStr (s : String) : Option Int :=
  match s.toList with
  | '-' :: rest =>
    match parseNatAux rest 0 with
    | some n => if rest.isEmpty then none else some (-(n : Int))
    | none => none
  | _ => (parseNatStr s).map (fun n => (n : Int))

/-- Model of the decode-time conversion (mapstructure plus the `cast`
calls inside viper) from a typed layer value into the destination
field's kind: same kind passes through, and the numeric kinds convert
when representable. -/
def decodeTyped (target found : Leaf) : Option Leaf :=
  match target, found with
  | .vBool _, .vBool b => some (.vBool b)
  | .vUint _, .vUint n => some (.vUint n)
  | .vUint _, .vInt i => if i < 0 then none else some (.vUint i.toNat)
  | .vInt _, .vInt i => some (.vInt i)
  | .vInt _, .vUint n => some (.vInt (n : Int))
  | .vFloat _, .vFloat x => some (.vFloat x)
  | .vStr _, .vStr s => some (.vStr s)
  | .vStrSlice _ _, .vStrSlice isNil xs => some (.vStrSlice isNil xs)
  | .vStrMap _ _, .vStrMap isNil m => some (.vStrMap isNil m)
  | _, _ => none

/-- Model of the decode-time conversion of a raw environment string into
the destination field's kind (the string-to-number / string-to-bool
casts the composed viper + mapstructure pipeline performs). -/
def convertStr (target : Leaf) (s : String) : Option Leaf :=
  match target with
  | .vInt _ => (parseIntStr s).map .vInt
  | .vUint _ => (parseNatStr s).map .vUint
  | .vStr _ => some (.vStr s)
  | .vBool _ =>
    if s == "true" || s == "1" then some (.vBool true)
    else if s == "false" || s == "0" then some (.vBool false)
    else none
  | _ => none

/-- Conversion of whatever the layered lookup found into the field's
kind. -/
def decodeFound (target : Leaf) (fv : FoundVal) : Option Leaf :=
  match fv with
  | .typed v => decodeTyped target v
  | .envStr s => convertStr target s

mutual
/-- The dotted keys and default values of the decode destination's leaf
fields, as the strict decode enumerates them (same tag resolution as
the walk; an untagged field is skipped under `IgnoreUntaggedFields` and
otherwise matched by its Go field name, and a nil pointer field has no
key to decode into). -/
def structLeaves (cfg : Cfg) (fs : Fields) (pfx : String) : List (String × Leaf) :=
  match fs with
  | .nil => []
  | .cons fname tags val rest =>
    fieldLeaves cfg fname tags val pfx ++ structLeaves cfg rest pfx

/-- Leaf keys contributed by one field of the decode destination. -/
def fieldLeaves (cfg : Cfg) (fname : String) (tags : List (String × String)) (val : FieldVal)
    (pfx : String) : List (String × Leaf) :=
  match val with
  | .nilPtr => []
  | .leaf lv =>
    if (tagGet tags cfg.fieldTagName).length == 0 then
      if cfg.ignoreUntaggedFields then [] else [(joinKey pfx fname, lv)]
    else [(joinKey pfx (firstCommaSeg (tagGet tags cfg.fieldTagName)), lv)]
  | .struc sub =>
    if (tagGet tags cfg.fieldTagName).length == 0 then
      if cfg.ignoreUntaggedFields then [] else structLeaves cfg sub (joinKey pfx fname)
    else structLeaves cfg sub (joinKey pfx (firstCommaSeg (tagGet tags cfg.fieldTagName)))
end

/-- Resolve every destination leaf through the layered lookup,
converting to the field's kind; a key no layer holds keeps the struct's
current (default) value. -/
def decodeLeaves (leaves : List (String × Leaf)) (vpr : ViperState) (cmd : CmdState)
    (env : EnvMap) : Except SchError (List (String × Leaf)) :=
  match leaves with
  | [] => .ok []
  | (k, dflt) :: rest =>
    match
      (match vfind vpr cmd env k with
       | none => some dflt
       | some fv => decodeFound dflt fv) with
    | none => .error (.decodeFailure k)
    | some v =>
      match decodeLeaves rest vpr cmd env with
      | .error e => .error e
      | .ok vs => .ok ((k, v) :: vs)

/-- Model of `viper.UnmarshalExact` into the result struct: the strict
decode errors on any merged config key with no destination field
(`ErrorUnused`; the default and flag layers are built from the struct
itself, so the config layer is the only source of unknown keys), then
resolves each destination leaf.  The decoded struct is represented by
its flat list of leaf assignments — rebuilding the nested Go struct from
them is the mechanical reflection copy outside the engine. -/
def viperUnmarshalExact (cfg : Cfg) (flds : Fields) (vpr : ViperState) (cmd : CmdState)
    (env : EnvMap) : Except SchError (List (String × Leaf)) :=
  match vpr.config.find?
      (fun kv => !(((structLeaves cfg flds "").map Prod.fst).contains kv.1)) with
  | some kv => .error (.unmarshalUnknownField kv.1)
  | none => decodeLeaves (structLeaves cfg flds "") vpr cmd env

/-- Embedding of `(*SnakeCharmer).UnmarshalExact` (snakecharmer.go lines
268-284): merge the config file when a path is configured, append the
tag-name decoder option when the field tag name is not the mapstructure
default, then strict-decode.  The file system and environment are the
ambient inputs of the Go version. -/
def SnakeCharmer.UnmarshalExact (sch : SnakeCharmer) (fsys : FileSystem) (env : EnvMap) :
    Except SchError (SnakeCharmer × List (String × Leaf)) :=
  match sch.cmd with
  | none => .error .cmdNotSet
  | some cmd =>
    match sch.viper with
    | none => .error .cmdNotSet
    | some vpr =>
      match sch.resultStruct with
      | none => .error .resultStructNotSet
      | some (.nonPtr tyName) => .error (.invalidInput tyName)
      | some (.nilPtr tyName) => .error (.nilDefault tyName)
      | some (.ptrToNonStruct tyName) => .error (.invalidInput tyName)
      | some (.ptrToStruct _ flds) =>
        match (if sch.configFilePath.length > 0 then sch.mergeInConfigFile vpr fsys
               else .ok vpr) with
        | .error e => .error e
        | .ok vpr1 =>
          match viperUnmarshalExact (cfgOf sch) flds vpr1 cmd env with
          | .error e => .error e
          | .ok r =>
            .ok ({ sch with
                   viper := some vpr1
                   decoderConfigOptions :=
                     if sch.fieldTagName == "mapstructure" then sch.decoderConfigOptions
                     else sch.decoderConfigOptions ++ [DecoderOpt.tagName sch.fieldTagName] },
                 r)

/-- Model of cobra flag parsing marking one flag as explicitly set with
a parsed value (`--name=value`). -/
def CmdState.setFlagChanged (cmd : CmdState) (name : String) (v : Leaf) : CmdState :=
  ⟨cmd.flags.map (fun nf => if nf.1 == name then (nf.1, { nf.2 with changed := some v }) else nf)⟩

/-- Engine-level version of `CmdState.setFlagChanged`. -/
def SnakeCharmer.setFlag (sch : SnakeCharmer) (name : String) (v : Leaf) : SnakeCharmer :=
  match sch.cmd with
  | some c => { sch with cmd := some (c.setFlagChanged name v) }
  | none => sch

mutual
/-- Specification function, written from the spec's wording rather than
the source, for the refinement claim about dotted keys: the keys the
spec predicts the walk will register — per field, the tag's first
comma segment joined onto the parent key with a dot when the parent key
is non-empty; a nested struct contributes only its descendants' keys,
under the extended parent key. -/
def specKeysFields (cfg : Cfg) (fs : Fields) (pfx : String) : List String :=
  match fs with
  | .nil => []
  | .cons fname tags val rest =>
    specKeysField cfg fname tags val pfx ++ specKeysFields cfg rest pfx

/-- Keys the spec predicts for a single field (helper of
`specKeysFields`). -/
def specKeysField (cfg : Cfg) (_fname : String) (tags : List (String × String)) (val : FieldVal)
    (pfx : String) : List String :=
  match val with
  | .nilPtr => []
  | .leaf _ =>
    if (tagGet tags cfg.fieldTagName).length == 0 then []
    else [joinKey pfx (firstCommaSeg (tagGet tags cfg.fieldTagName))]
  | .struc sub =>
    if (tagGet tags cfg.fieldTagName).length == 0 then []
    else specKeysFields cfg sub (joinKey pfx (firstCommaSeg (tagGet tags cfg.fieldTagName)))
end

/-- A walk configuration with the source's default tag names and
untagged fields not ignored. -/
def cfgDefault : Cfg := ⟨"mapstructure", "env", "usage", false⟩

/-- A walk configuration with the source's default tag names and
untagged fields ignored. -/
def cfgIgnore : Cfg := ⟨"mapstructure", "env", "usage", true⟩

/-- Fixture: a single-field schema whose field has no field-key tag and
dereferences to a nil pointer. -/
def nilFieldFixture : Fields := .cons "NilField" [] FieldVal.nilPtr .nil

/-- Fixture for the spec's concrete precedence scenario: field
`Workers`, default 128, tagged `workers` and bound to env `WORKERS`. -/
def workersFields : Fields :=
  .cons "Workers"
    [("mapstructure", "workers,omitempty"), ("env", "WORKERS"),
     ("usage", "Number of workers to run")]
    (.leaf (.vInt 128)) .nil

/-- Engine for the precedence scenario: the `Workers` schema, a fresh
cobra command and viper store, no config file. -/
def workersCharmer : SnakeCharmer :=
  { initialCharmer with
      resultStruct := some (.ptrToStruct false workersFields)
      cmd := some emptyCmd
      viper := some emptyViper }

/-- Fixture for the spec's nesting example: a struct field tagged `log`
containing a leaf field tagged `level`. -/
def logFields : Fields :=
  .cons "Logging" [("mapstructure", "log,omitempty")]
    (.struc (.cons "Level" [("mapstructure", "level,omitempty"), ("usage", "Log level")]
      (.leaf (.vStr "info")) .nil)) .nil

/-- A file system on which every path is absent and nothing parses. -/
def noFs : FileSystem := ⟨fun _ => .notExist, fun _ => none⟩

/-- A file system on which every path stats as a regular file with
empty parsed content. -/
def fileFs : FileSystem := ⟨fun _ => .file, fun _ => some []⟩

/-- A file system on which every stat fails indeterminately. -/
def errFs : FileSystem := ⟨fun _ => .statError "permission denied", fun _ => none⟩

/-- Fixture: a one-leaf schema for the engine-replacement scenario. -/
def structFieldsA : Fields :=
  .cons "A" [("mapstructure", "a"), ("usage", "a flag")] (.leaf (.vBool true)) .nil

/-- Engine holding `structFieldsA` as its result struct. -/
def charmerA : SnakeCharmer :=
  { initialCharmer with
      resultStruct := some (.ptrToStruct false structFieldsA)
      cmd := some emptyCmd
      viper := some emptyViper }

/-- What `charmerA` becomes after a `Set` call that passes a valid
replacement result struct (the empty schema). -/
def charmerA2 : SnakeCharmer :=
  { charmerA with resultStruct := some (.ptrToStruct false Fields.nil) }

/-- A non-empty string has non-zero length. -/
theorem strNe_beq_false {s : String} (h : s ≠ "") : (s.length == 0) = false := by
  cases s with
  | mk data =>
    cases data with
    | nil => exact absurd rfl h
    | cons c cs => rfl

/-- A string of positive length has non-zero length. -/
theorem strPos_beq_false {s : String} (h : s.length > 0) : (s.length == 0) = false := by
  simp only [beq_eq_false_iff_ne]
  omega

/-- When `applySetting` succeeds it appends exactly one flag, named by
the resolved key, to the cobra flag set. -/
theorem applySetting_ok_flags {rv : Leaf} {name help : String} {cmd : CmdState}
    {vpr : ViperState} {c : CmdState} {v : ViperState}
    (h : applySetting rv name help cmd vpr = .ok (c, v)) :
    c.flags = cmd.flags ++ [(name, ⟨rv, help, none⟩)] := by
  cases rv <;> simp only [applySetting] at h <;>
    (try split at h) <;>
    simp_all [CmdState.addFlag] <;>
    (obtain ⟨h1, h2⟩ := h; subst h1; rfl)

/-- The flag names registered by a successful walk are exactly the keys
the spec's dotted-key rule predicts, appended to the flags already
present. -/
theorem walk_flagNames (cfg : Cfg) :
    ∀ (fs : Fields) (pfx : String) (cmd : CmdState) (vpr : ViperState) (c : CmdState)
      (v : ViperState), walkFields cfg fs pfx cmd vpr = .ok (c, v) →
      c.flags.map Prod.fst = cmd.flags.map Prod.fst ++ specKeysFields cfg fs pfx := by
  intro fs pfx cmd vpr c v
  refine walkFields.induct cfg
    (fun fs pfx cmd vpr => ∀ c v, walkFields cfg fs pfx cmd vpr = .ok (c, v) →
      c.flags.map Prod.fst = cmd.flags.map Prod.fst ++ specKeysFields cfg fs pfx)
    (fun fname tags val pfx cmd vpr => ∀ c v, walkField cfg fname tags val pfx cmd vpr = .ok (c, v) →
      c.flags.map Prod.fst = cmd.flags.map Prod.fst ++ specKeysField cfg fname tags val pfx)
    ?_ ?_ ?_ ?_ ?_ ?_ ?_ ?_ ?_ ?_ ?_ ?_ fs pfx cmd vpr c v
  · intro fname tags pfx cmd vpr c v h
    simp [walkField] at h
  · intro fname tags pfx cmd vpr lv htag hign c v h
    simp only [walkField, htag, if_true, hign, Except.ok.injEq, Prod.mk.injEq] at h
    obtain ⟨h1, h2⟩ := h
    subst h1
    simp [specKeysField, htag]
  · intro fname tags pfx cmd vpr lv htag hign c v h
    simp only [walkField, htag, if_true] at h
    rw [if_neg hign] at h
    exact absurd h (by simp)
  · intro fname tags pfx cmd vpr lv htag hhelp c v h
    simp only [walkField] at h
    rw [if_neg htag, if_pos hhelp] at h
    exact absurd h (by simp)
  · intro fname tags pfx cmd vpr lv htag hhelp e happ c v h
    simp only [walkField] at h
    rw [if_neg htag, if_neg hhelp, happ] at h
    exact absurd h (by simp)
  · intro fname tags pfx cmd vpr lv htag hhelp c0 v0 happ c v h
    simp only [walkField] at h
    rw [if_neg htag, if_neg hhelp, happ] at h
    simp only [Except.ok.injEq, Prod.mk.injEq] at h
    obtain ⟨h1, h2⟩ := h
    subst h1
    rw [applySetting_ok_flags happ]
    simp only [specKeysField]
    rw [if_neg htag]
    simp
  · intro fname tags pfx cmd vpr sub htag hign c v h
    simp only [walkField, htag, if_true, hign, Except.ok.injEq, Prod.mk.injEq] at h
    obtain ⟨h1, h2⟩ := h
    subst h1
    simp [specKeysField, htag]
  · intro fname tags pfx cmd vpr sub htag hign c v h
    simp only [walkField, htag, if_true] at h
    rw [if_neg hign] at h
    exact absurd h (by simp)
  · intro fname tags pfx cmd vpr sub htag ih c v h
    simp only [walkField] at h
    rw [if_neg htag] at h
    have := ih c v h
    simp only [specKeysField]
    rw [if_neg htag]
    exact this
  · intro pfx cmd vpr c v h
    simp only [walkFields, Except.ok.injEq, Prod.mk.injEq] at h
    obtain ⟨h1, h2⟩ := h
    subst h1
    simp [specKeysFields]
  · intro pfx cmd vpr a a1 a2 a3 e herr ih c v h
    simp only [walkFields, herr] at h
    exact Except.noConfusion h
  · intro pfx cmd vpr a a1 a2 a3 c1 v1 hok ih1 ih2 c v h
    simp only [walkFields, hok] at h
    have e1 := ih1 c1 v1 hok
    have e2 := ih2 c v h
    rw [e2, e1, specKeysFields]
    simp

/-- A non-empty string has positive length. -/
theorem strNe_length_pos {s : String} (h : s ≠ "") : s.length > 0 := by
  cases s with
  | mk data =>
    cases data with
    | nil => exact absurd rfl h
    | cons c cs => simp [String.length]

/-- C9: during the schema walk, a field whose dereferenced value is a
nil pointer or nil interface aborts binding fatally before the field-key
tag is consulted: for every tag set (including an absent one) and either
untagged-field policy, both the single-field step and the loop
containing the field fail with the nil-default error. -/
theorem nil_field_checked_before_tag (cfg : Cfg) (fname : String)
    (tags : List (String × String)) (pfx : String) (cmd : CmdState) (vpr : ViperState)
    (rest : Fields) :
    walkField cfg fname tags FieldVal.nilPtr pfx cmd vpr = .error (.nilDefault fname) ∧
    walkFields cfg (.cons fname tags FieldVal.nilPtr rest) pfx cmd vpr
      = .error (.nilDefault fname) :=
  ⟨rfl, rfl⟩

/-- C10: the result-struct construction option rejects a non-pointer, a
nil pointer, a pointer to a non-struct, and a pointer to a struct type
convertible to `time.Time`, returning a construction error in each
case. -/
theorem with_result_struct_rejections (sch : SnakeCharmer) (tyName : String) (flds : Fields) :
    applyOption (.withResultStruct (.nonPtr tyName)) sch = .error (.invalidResultStruct tyName) ∧
    applyOption (.withResultStruct (.nilPtr tyName)) sch = .error (.invalidResultStruct tyName) ∧
    applyOption (.withResultStruct (.ptrToNonStruct tyName)) sch
      = .error (.invalidResultStruct tyName) ∧
    applyOption (.withResultStruct (.ptrToStruct true flds)) sch
      = .error (.invalidResultStruct "time.Time") :=
  ⟨rfl, rfl, rfl, rfl⟩

/-- C2 counterexample: binding a mapping leaf whose default is the
empty but non-nil map is NOT a fatal condition — `applySetting`
registers the option and the settings default, because the source
checks the map only for nil-ness (snakecharmer.go line 390), never for
emptiness. -/
theorem empty_map_default_registered_counterexample :
    applySetting (Leaf.vStrMap false []) "log.dst" "Log destinations" emptyCmd emptyViper
      = .ok (emptyCmd.addFlag "log.dst" (Leaf.vStrMap false []) "Log destinations",
             emptyViper.setDefault "log.dst" (Leaf.vStrMap false [])) := rfl

/-- C2 amended: a sequence leaf whose default is nil or empty is a
fatal invalid-default condition, and a mapping leaf whose default is
nil is a fatal invalid-default condition; a mapping leaf whose default
is empty but non-nil is accepted and registers the option. -/
theorem seq_map_default_validation (name help : String) (cmd : CmdState) (vpr : ViperState)
    (isNil : Bool) (entries : List (String × String)) :
    applySetting (Leaf.vStrSlice isNil []) name help cmd vpr
      = .error (.invalidDefault name "[]string") ∧
    applySetting (Leaf.vStrMap true entries) name help cmd vpr
      = .error (.invalidDefault name "map[string]string") ∧
    applySetting (Leaf.vStrMap false entries) name help cmd vpr
      = .ok (cmd.addFlag name (Leaf.vStrMap false entries) help,
             vpr.setDefault name (Leaf.vStrMap false entries)) :=
  ⟨rfl, rfl, rfl⟩

/-- C3: the keys registered by a successful walk are exactly those
predicted by the spec's dotted-key rule (`specKeysFields`); for a
nested struct field the predicted keys are its descendants' keys under
the extended parent key and never the struct field's own key; joining
onto a non-empty parent key inserts a dot; and the spec's concrete
example — a struct field tagged `log` containing a leaf tagged `level` —
registers exactly the key `log.level`. -/
theorem nested_dotted_keys :
    (∀ (cfg : Cfg) (fs : Fields) (pfx : String) (cmd : CmdState) (vpr : ViperState)
       (c : CmdState) (v : ViperState),
       walkFields cfg fs pfx cmd vpr = .ok (c, v) →
       c.flags.map Prod.fst = cmd.flags.map Prod.fst ++ specKeysFields cfg fs pfx) ∧
    (∀ (cfg : Cfg) (fname : String) (tags : List (String × String)) (sub : Fields)
       (pfx : String), ((tagGet tags cfg.fieldTagName).length == 0) = false →
       specKeysField cfg fname tags (FieldVal.struc sub) pfx
         = specKeysFields cfg sub (joinKey pfx (firstCommaSeg (tagGet tags cfg.fieldTagName)))) ∧
    (∀ pfx key : String, pfx ≠ "" → joinKey pfx key = pfx ++ "." ++ key) ∧
    (walkFields cfgIgnore logFields "" emptyCmd emptyViper).map
        (fun cv => cv.1.flags.map Prod.fst) = .ok ["log.level"] := by
  refine ⟨fun cfg => walk_flagNames cfg, ?_, ?_, rfl⟩
  · intro cfg fname tags sub pfx h
    simp [specKeysField, h]
  · intro pfx key h
    simp [joinKey, strNe_length_pos h]

/-- Witness for `nested_dotted_keys` at concrete inputs. -/
theorem nested_dotted_keys_witness :
    ((emptyCmd.addFlag "log.level" (Leaf.vStr "info") "Log level").flags.map Prod.fst
       = emptyCmd.flags.map Prod.fst ++ specKeysFields cfgIgnore logFields "") ∧
    (specKeysField cfgIgnore "Logging" [("mapstructure", "log,omitempty")]
        (FieldVal.struc (.cons "Level" [("mapstructure", "level,omitempty"), ("usage", "Log level")]
          (.leaf (.vStr "info")) .nil)) ""
       = specKeysFields cfgIgnore
           (.cons "Level" [("mapstructure", "level,omitempty"), ("usage", "Log level")]
             (.leaf (.vStr "info")) .nil)
           (joinKey "" (firstCommaSeg
             (tagGet [("mapstructure", "log,omitempty")] cfgIgnore.fieldTagName)))) ∧
    (joinKey "log" "level" = "log" ++ "." ++ "level") :=
  ⟨nested_dotted_keys.1 cfgIgnore logFields "" emptyCmd emptyViper _ _ rfl,
   nested_dotted_keys.2.1 cfgIgnore "Logging" [("mapstructure", "log,omitempty")] _ "" rfl,
   nested_dotted_keys.2.2.1 "log" "level" (by decide)⟩

/-- C4 counterexample: with the ignore-untagged-fields flag enabled, an
untagged field whose value is a nil pointer is NOT excluded from
binding — the walk aborts with the nil-default error instead of
skipping the field and succeeding. -/
theorem untagged_nil_field_counterexample :
    walkFields cfgIgnore nilFieldFixture "" emptyCmd emptyViper
       = .error (.nilDefault "NilField") ∧
    walkFields cfgIgnore nilFieldFixture "" emptyCmd emptyViper ≠ .ok (emptyCmd, emptyViper) :=
  ⟨rfl, fun h => Except.noConfusion h⟩

/-- C4 amended: for an untagged field whose value is not a nil pointer
or nil interface, the ignore-untagged-fields flag decides: enabled, the
field is excluded from binding entirely (the step is a no-op on both
stores, the loop continues as if the field were absent, and the field
contributes no decoded key); disabled, the field is a fatal missing-tag
schema error.  (An untagged nil-pointer field instead aborts with the
nil-default error, per the counterexample.) -/
theorem untagged_field_handling (cfg : Cfg) (fname : String) (tags : List (String × String))
    (val : FieldVal) (pfx : String) (cmd : CmdState) (vpr : ViperState) (rest : Fields)
    (hTag : tagGet tags cfg.fieldTagName = "")
    (hNotNil : val ≠ FieldVal.nilPtr) :
    (cfg.ignoreUntaggedFields = true →
      walkField cfg fname tags val pfx cmd vpr = .ok (cmd, vpr) ∧
      walkFields cfg (.cons fname tags val rest) pfx cmd vpr = walkFields cfg rest pfx cmd vpr ∧
      fieldLeaves cfg fname tags val pfx = []) ∧
    (cfg.ignoreUntaggedFields = false →
      walkField cfg fname tags val pfx cmd vpr = .error (.missingTag fname)) := by
  cases val with
  | nilPtr => exact absurd rfl hNotNil
  | leaf lv =>
    constructor
    · intro hig
      refine ⟨?_, ?_, ?_⟩
      · simp [walkField, hTag, hig]
      · simp [walkFields, walkField, hTag, hig]
      · simp [fieldLeaves, hTag, hig]
    · intro hig
      simp [walkField, hTag, hig]
  | struc sub =>
    constructor
    · intro hig
      refine ⟨?_, ?_, ?_⟩
      · simp [walkField, hTag, hig]
      · simp [walkFields, walkField, hTag, hig]
      · simp [fieldLeaves, hTag, hig]
    · intro hig
      simp [walkField, hTag, hig]

/-- Witness for `untagged_field_handling` at concrete inputs. -/
theorem untagged_field_handling_witness :
    (walkField cfgIgnore "Hidden" [] (FieldVal.leaf (Leaf.vBool true)) "" emptyCmd emptyViper
       = .ok (emptyCmd, emptyViper)) ∧
    (walkField cfgDefault "Hidden" [] (FieldVal.leaf (Leaf.vBool true)) "" emptyCmd emptyViper
       = .error (.missingTag "Hidden")) :=
  ⟨((untagged_field_handling cfgIgnore "Hidden" [] (FieldVal.leaf (Leaf.vBool true)) ""
      emptyCmd emptyViper Fields.nil rfl (fun h => FieldVal.noConfusion h)).1 rfl).1,
   (untagged_field_handling cfgDefault "Hidden" [] (FieldVal.leaf (Leaf.vBool true)) ""
      emptyCmd emptyViper Fields.nil rfl (fun h => FieldVal.noConfusion h)).2 rfl⟩

/-- C5: for an existing regular-file config path, the resolver
classifies by extension: a recognized extension makes it tell the
settings store only the exact file path (format inferred from the
extension, no explicit type set); an absent or unrecognized extension
makes it set both the configured file type and the exact path; an
unrecognized extension is never an error. -/
theorem config_file_extension_classification (sch : SnakeCharmer) (vpr : ViperState)
    (fsys : FileSystem) (hPath : sch.configFilePath.length > 0)
    (hStat : fsys.stat sch.configFilePath = .file) :
    (fileExtOf sch.configFilePath ≠ "" → fileExtSupported (fileExtOf sch.configFilePath) = true →
      sch.findConfigFile vpr fsys = .ok (true, vpr.setConfigFile sch.configFilePath)) ∧
    ((fileExtOf sch.configFilePath = "" ∨ fileExtSupported (fileExtOf sch.configFilePath) = false) →
      sch.findConfigFile vpr fsys
        = .ok (true, (vpr.setConfigType sch.configFileType).setConfigFile sch.configFilePath)) := by
  have hbeq : (sch.configFilePath.length == 0) = false := strPos_beq_false hPath
  constructor
  · intro hne hsup
    simp [SnakeCharmer.findConfigFile, hbeq, hStat, strNe_beq_false hne, hsup]
  · intro hor
    rcases hor with he | hu
    · simp [SnakeCharmer.findConfigFile, hbeq, hStat, he]
    · by_cases hne : fileExtOf sch.configFilePath = ""
      · simp [SnakeCharmer.findConfigFile, hbeq, hStat, hne]
      · simp [SnakeCharmer.findConfigFile, hbeq, hStat, strNe_beq_false hne, hu]

/-- Witness for `config_file_extension_classification` on the paths
`x.json` (recognized) and `x.xyz` (unrecognized). -/
theorem config_file_extension_classification_witness :
    ({ workersCharmer with configFilePath := "x.json" } : SnakeCharmer).findConfigFile
        emptyViper fileFs = .ok (true, emptyViper.setConfigFile "x.json") ∧
    ({ workersCharmer with configFilePath := "x.xyz" } : SnakeCharmer).findConfigFile
        emptyViper fileFs
      = .ok (true, (emptyViper.setConfigType "yaml").setConfigFile "x.xyz") :=
  ⟨(config_file_extension_classification _ emptyViper fileFs (by decide) rfl).1 (by decide) rfl,
   (config_file_extension_classification _ emptyViper fileFs (by decide) rfl).2 (Or.inr rfl)⟩

/-- C6: for a non-empty config path, stat failure is classified into
exactly two distinct errors — non-existence into the not-found error
and any other stat failure into the indeterminate error — and in both
cases the merge step returns that error without reading or merging the
file. -/
theorem config_stat_error_classification (sch : SnakeCharmer) (vpr : ViperState)
    (fsys : FileSystem) (msg : String) (hPath : sch.configFilePath.length > 0) :
    (fsys.stat sch.configFilePath = .notExist →
      sch.findConfigFile vpr fsys = .error (.configPathNotFound sch.configFilePath) ∧
      sch.mergeInConfigFile vpr fsys = .error (.configPathNotFound sch.configFilePath)) ∧
    (fsys.stat sch.configFilePath = .statError msg →
      sch.findConfigFile vpr fsys = .error (.configPathIndeterminate sch.configFilePath msg) ∧
      sch.mergeInConfigFile vpr fsys
        = .error (.configPathIndeterminate sch.configFilePath msg)) ∧
    (∀ p m : String, SchError.configPathNotFound p ≠ SchError.configPathIndeterminate p m) := by
  have hbeq : (sch.configFilePath.length == 0) = false := strPos_beq_false hPath
  refine ⟨?_, ?_, ?_⟩
  · intro hStat
    have hf : sch.findConfigFile vpr fsys = .error (.configPathNotFound sch.configFilePath) := by
      simp [SnakeCharmer.findConfigFile, hbeq, hStat]
    exact ⟨hf, by simp [SnakeCharmer.mergeInConfigFile, hbeq, hf]⟩
  · intro hStat
    have hf : sch.findConfigFile vpr fsys
        = .error (.configPathIndeterminate sch.configFilePath msg) := by
      simp [SnakeCharmer.findConfigFile, hbeq, hStat]
    exact ⟨hf, by simp [SnakeCharmer.mergeInConfigFile, hbeq, hf]⟩
  · intro p m
    exact fun h => SchError.noConfusion h

/-- Witness for `config_stat_error_classification` on a non-existent
path and a permission-denied path. -/
theorem config_stat_error_classification_witness :
    ({ workersCharmer with configFilePath := "./conf" } : SnakeCharmer).findConfigFile
        emptyViper noFs = .error (.configPathNotFound "./conf") ∧
    ({ workersCharmer with configFilePath := "./conf" } : SnakeCharmer).mergeInConfigFile
        emptyViper errFs = .error (.configPathIndeterminate "./conf" "permission denied") :=
  ⟨((config_stat_error_classification _ emptyViper noFs "x" (by decide)).1 rfl).1,
   ((config_stat_error_classification _ emptyViper errFs "permission denied"
      (by decide)).2.1 rfl).2⟩

/-- C1: viper's layered per-key lookup realizes the strict precedence
order — an explicitly changed flag beats a bound non-empty environment
variable, which beats a merged config-file value, which beats the
registered default — and, through the full pipeline built by `AddFlags`
and resolved by `UnmarshalExact` on the `Workers` schema (default 128,
bound to env `WORKERS`): env `WORKERS=512` with no flag resolves to
512, additionally passing `--workers=999` resolves to 999, and with
neither the default 128 survives. -/
theorem precedence_resolution_order :
    (∀ (vpr : ViperState) (cmd : CmdState) (env : EnvMap) (key : String) (lv : Leaf),
       flagChanged vpr cmd key = some lv → vfind vpr cmd env key = some (.typed lv)) ∧
    (∀ (vpr : ViperState) (cmd : CmdState) (env : EnvMap) (key s : String),
       flagChanged vpr cmd key = none → envLookup vpr env key = some s →
       vfind vpr cmd env key = some (.envStr s)) ∧
    (∀ (vpr : ViperState) (cmd : CmdState) (env : EnvMap) (key : String) (lv : Leaf),
       flagChanged vpr cmd key = none → envLookup vpr env key = none →
       List.lookup key vpr.config = some lv → vfind vpr cmd env key = some (.typed lv)) ∧
    (∀ (vpr : ViperState) (cmd : CmdState) (env : EnvMap) (key : String) (lv : Leaf),
       flagChanged vpr cmd key = none → envLookup vpr env key = none →
       List.lookup key vpr.config = none → List.lookup key vpr.defaults = some lv →
       vfind vpr cmd env key = some (.typed lv)) ∧
    ((workersCharmer.AddFlags.bind
        (fun sch1 => (sch1.UnmarshalExact noFs [("WORKERS", "512")]).map Prod.snd))
       = .ok [("workers", Leaf.vInt 512)]) ∧
    (((workersCharmer.AddFlags.map (fun sch1 => sch1.setFlag "workers" (.vInt 999))).bind
        (fun sch1 => (sch1.UnmarshalExact noFs [("WORKERS", "512")]).map Prod.snd))
       = .ok [("workers", Leaf.vInt 999)]) ∧
    ((workersCharmer.AddFlags.bind
        (fun sch1 => (sch1.UnmarshalExact noFs []).map Prod.snd))
       = .ok [("workers", Leaf.vInt 128)]) := by
  refine ⟨?_, ?_, ?_, ?_, rfl, rfl, rfl⟩
  · intro vpr cmd env key lv h
    simp [vfind, h]
  · intro vpr cmd env key s hf he
    simp [vfind, hf, he]
  · intro vpr cmd env key lv hf he hc
    simp [vfind, hf, he, hc]
  · intro vpr cmd env key lv hf he hc hd
    simp [vfind, hf, he, hc, hd]

/-- Witness for `precedence_resolution_order` exercising each layer at
concrete inputs. -/
theorem precedence_resolution_order_witness :
    vfind (emptyViper.bindPFlag "k")
        ⟨[("k", ⟨Leaf.vInt 1, "h", some (Leaf.vInt 7)⟩)]⟩ [] "k"
        = some (.typed (Leaf.vInt 7)) ∧
    vfind (emptyViper.bindEnv "k" "E") emptyCmd [("E", "5")] "k" = some (.envStr "5") ∧
    vfind { emptyViper with config := [("k", Leaf.vStr "c")] } emptyCmd [] "k"
        = some (.typed (Leaf.vStr "c")) ∧
    vfind (emptyViper.setDefault "k" (Leaf.vBool true)) emptyCmd [] "k"
        = some (.typed (Leaf.vBool true)) :=
  ⟨precedence_resolution_order.1 _ _ [] "k" _ rfl,
   precedence_resolution_order.2.1 _ _ _ "k" "5" rfl rfl,
   precedence_resolution_order.2.2.1 _ _ [] "k" _ rfl rfl rfl,
   precedence_resolution_order.2.2.2.1 _ _ [] "k" _ rfl rfl rfl rfl⟩

/-- Every single functional option preserves the set-ness of the result
struct: on success it either leaves `resultStruct` unchanged or stores a
valid pointer-to-struct, never unsetting it. -/
theorem applyOption_resultStruct_isSome {o : CharmingOption} {sch sch' : SnakeCharmer}
    (hs : sch.resultStruct.isSome = true) (h : applyOption o sch = .ok sch') :
    sch'.resultStruct.isSome = true := by
  cases o with
  | withResultStruct rs =>
    cases rs with
    | nonPtr t => exact Except.noConfusion h
    | nilPtr t => exact Except.noConfusion h
    | ptrToNonStruct t => exact Except.noConfusion h
    | ptrToStruct tc flds =>
      cases tc with
      | true => exact Except.noConfusion h
      | false => injection h with h1; subst h1; rfl
  | withFieldTagName s =>
    simp only [applyOption] at h
    split at h
    · exact Except.noConfusion h
    · injection h with h1; subst h1; exact hs
  | withEnvTagName s =>
    simp only [applyOption] at h
    split at h
    · exact Except.noConfusion h
    · injection h with h1; subst h1; exact hs
  | withFlagHelpTagName s =>
    simp only [applyOption] at h
    split at h
    · exact Except.noConfusion h
    · injection h with h1; subst h1; exact hs
  | withConfigFileType s =>
    simp only [applyOption] at h
    split at h
    · injection h with h1; subst h1; exact hs
    · exact Except.noConfusion h
  | withConfigFilePath s =>
    injection h with h1; subst h1; exact hs
  | withConfigFileBaseName s =>
    simp only [applyOption] at h
    split at h
    · exact Except.noConfusion h
    · injection h with h1; subst h1; exact hs
  | withDecoderConfigOption dopt =>
    injection h with h1; subst h1; exact hs
  | withIgnoreUntaggedFields b =>
    injection h with h1; subst h1; exact hs
  | withViper v =>
    injection h with h1; subst h1; exact hs
  | withCobraCommand c =>
    injection h with h1; subst h1; exact hs

/-- C8 counterexample: the result struct reference is NOT set exactly
once — a later `Set` call carrying a valid result-struct option
succeeds and replaces the reference stored at construction with a
different one. -/
theorem result_struct_replaced_counterexample :
    charmerA.Set [CharmingOption.withResultStruct (GoArg.ptrToStruct false Fields.nil)]
        = .ok charmerA2 ∧
    charmerA2.resultStruct ≠ charmerA.resultStruct ∧
    charmerA.resultStruct = some (GoArg.ptrToStruct false structFieldsA) := by
  refine ⟨rfl, ?_, rfl⟩
  intro h
  simp [charmerA2, charmerA, structFieldsA] at h

/-- C8 amended: the result struct must be supplied for construction to
succeed, and it can never become unset afterwards — a successful
construction yields an engine whose result struct is set, and any
successful setter-style reconfiguration preserves set-ness (the
result-struct option only ever stores a valid non-nil
pointer-to-struct).  The reference itself is not immutable: a `Set`
call with a valid replacement substitutes it, per the
counterexample. -/
theorem result_struct_invariant_amended :
    (∀ (opts : List CharmingOption) (sch : SnakeCharmer),
       NewSnakeCharmer opts = .ok sch → sch.resultStruct.isSome = true) ∧
    (∀ (sch sch' : SnakeCharmer) (opts : List CharmingOption),
       sch.resultStruct.isSome = true → sch.Set opts = .ok sch' →
       sch'.resultStruct.isSome = true) := by
  constructor
  · intro opts sch h
    unfold NewSnakeCharmer at h
    cases happ : applyOptions initialCharmer opts with
    | error e => rw [happ] at h; exact Except.noConfusion h
    | ok sch0 =>
      rw [happ] at h
      try simp only at h
      by_cases hrs : sch0.resultStruct.isNone
      · rw [if_pos hrs] at h
        exact Except.noConfusion h
      · rw [if_neg hrs] at h
        have hsome : sch0.resultStruct.isSome = true := by
          cases ho : sch0.resultStruct with
          | none => rw [ho] at hrs; exact absurd rfl hrs
          | some x => rfl
        split at h
        · split at h
          · exact Except.noConfusion h
          · injection h with h1
            subst h1
            exact hsome
        · split at h
          · exact Except.noConfusion h
          · injection h with h1
            subst h1
            exact hsome
  · intro sch sch' opts
    induction opts generalizing sch with
    | nil =>
      intro hs h
      injection h with h1
      subst h1
      exact hs
    | cons o rest ih =>
      intro hs h
      unfold SnakeCharmer.Set applyOptions at h
      cases ho : applyOption o sch with
      | error e => rw [ho] at h; exact Except.noConfusion h
      | ok sch1 =>
        rw [ho] at h
        exact ih sch1 (applyOption_resultStruct_isSome hs ho) h

/-- Witness for `result_struct_invariant_amended`: construction with a
result struct and a command succeeds with the reference set, and a
`Set` call preserves set-ness. -/
theorem result_struct_invariant_amended_witness :
    charmerA.resultStruct.isSome = true ∧ charmerA2.resultStruct.isSome = true :=
  ⟨result_struct_invariant_amended.1
      [CharmingOption.withResultStruct (GoArg.ptrToStruct false structFieldsA),
       CharmingOption.withCobraCommand emptyCmd, CharmingOption.withViper emptyViper]
      charmerA rfl,
   result_struct_invariant_amended.2 charmerA charmerA2
      [CharmingOption.withResultStruct (GoArg.ptrToStruct false Fields.nil)] rfl rfl⟩

/-- A successful extension search returns a file the file system
actually parses to the returned content. -/
theorem searchExts_read {fsys : FileSystem} {p nm f : String} {m : List (String × Leaf)} :
    ∀ {exts : List String}, searchExts fsys p nm exts = some (f, m) → fsys.read f = some m := by
  intro exts
  induction exts with
  | nil => intro h; exact Option.noConfusion h
  | cons e rest ih =>
    intro h
    unfold searchExts at h
    cases hr : fsys.read (p ++ "/" ++ nm ++ "." ++ e) with
    | some m' =>
      rw [hr] at h
      simp only [Option.some.injEq, Prod.mk.injEq] at h
      obtain ⟨h1, h2⟩ := h
      subst h1
      subst h2
      exact hr
    | none =>
      rw [hr] at h
      simp only at h
      exact ih h

/-- A successful directory search returns a file the file system
actually parses to the returned content. -/
theorem searchConfig_read {fsys : FileSystem} {nm f : String} {m : List (String × Leaf)} :
    ∀ {paths : List String}, searchConfig fsys paths nm = some (f, m) → fsys.read f = some m := by
  intro paths
  induction paths with
  | nil => intro h; exact Option.noConfusion h
  | cons p rest ih =>
    intro h
    unfold searchConfig at h
    cases hse : searchExts fsys p nm supportedExts with
    | some r =>
      rw [hse] at h
      simp only [Option.some.injEq] at h
      subst h
      exact searchExts_read hse
    | none =>
      rw [hse] at h
      exact ih h

/-- The layered lookup depends only on the four decode-relevant store
components. -/
theorem vfind_congr {v1 v2 : ViperState} (cmd : CmdState) (env : EnvMap) (key : String)
    (hdef : v2.defaults = v1.defaults) (hconf : v2.config = v1.config)
    (henv : v2.envBinds = v1.envBinds) (hpf : v2.pflagBinds = v1.pflagBinds) :
    vfind v2 cmd env key = vfind v1 cmd env key := by
  unfold vfind flagChanged envLookup
  rw [hdef, hconf, henv, hpf]

/-- Leaf resolution depends only on the four decode-relevant store
components. -/
theorem decodeLeaves_congr {v1 v2 : ViperState} (cmd : CmdState) (env : EnvMap)
    (hdef : v2.defaults = v1.defaults) (hconf : v2.config = v1.config)
    (henv : v2.envBinds = v1.envBinds) (hpf : v2.pflagBinds = v1.pflagBinds) :
    ∀ leaves, decodeLeaves leaves v2 cmd env = decodeLeaves leaves v1 cmd env := by
  intro leaves
  induction leaves with
  | nil => rfl
  | cons kv rest ih =>
    obtain ⟨k, dflt⟩ := kv
    unfold decodeLeaves
    rw [vfind_congr cmd env k hdef hconf henv hpf, ih]

/-- The strict decode depends only on the four decode-relevant store
components. -/
theorem viperUnmarshalExact_congr (cfg : Cfg) (flds : Fields) (cmd : CmdState) (env : EnvMap)
    {v1 v2 : ViperState}
    (hdef : v2.defaults = v1.defaults) (hconf : v2.config = v1.config)
    (henv : v2.envBinds = v1.envBinds) (hpf : v2.pflagBinds = v1.pflagBinds) :
    viperUnmarshalExact cfg flds v2 cmd env = viperUnmarshalExact cfg flds v1 cmd env := by
  unfold viperUnmarshalExact
  rw [hconf]
  cases List.find?
      (fun kv => !(((structLeaves cfg flds "").map Prod.fst).contains kv.1)) v1.config with
  | none => simp only; rw [decodeLeaves_congr cmd env hdef hconf henv hpf]
  | some kv => rfl

/-- Re-running the config-file merge from the state a successful merge
produced succeeds again and leaves every decode-relevant component
(defaults, merged config, env bindings, flag bindings) unchanged: the
same file is located and parses to the same content. -/
theorem merge_again (sch : SnakeCharmer) (vpr vpr1 : ViperState) (fsys : FileSystem)
    (h : sch.mergeInConfigFile vpr fsys = .ok vpr1) :
    ∃ vpr2, sch.mergeInConfigFile vpr1 fsys = .ok vpr2 ∧
      vpr2.defaults = vpr1.defaults ∧ vpr2.config = vpr1.config ∧
      vpr2.envBinds = vpr1.envBinds ∧ vpr2.pflagBinds = vpr1.pflagBinds := by
  unfold SnakeCharmer.mergeInConfigFile SnakeCharmer.findConfigFile at h
  by_cases hp : (sch.configFilePath.length == 0) = true
  · rw [if_pos hp] at h
    exact Except.noConfusion h
  · rw [if_neg hp, if_neg hp] at h
    cases hstat : fsys.stat sch.configFilePath with
    | notExist =>
      rw [hstat] at h
      exact Except.noConfusion h
    | statError msg =>
      rw [hstat] at h
      exact Except.noConfusion h
    | dir =>
      rw [hstat] at h
      simp only at h
      unfold ViperState.readInConfig at h
      simp only [ViperState.addConfigPath, ViperState.setConfigName, Option.getD_some] at h
      cases hcfu : vpr.configFileUsed with
      | some f =>
        rw [hcfu] at h
        simp only at h
        cases hread : fsys.read f with
        | none =>
          rw [hread] at h
          exact Except.noConfusion h
        | some m =>
          rw [hread] at h
          simp only [if_true, Except.ok.injEq] at h
          subst h
          refine ⟨⟨vpr.defaults, m, vpr.envBinds, vpr.pflagBinds, some f, vpr.configTypeSet,
              vpr.configPaths ++ [sch.configFilePath] ++ [sch.configFilePath],
              some sch.configFileBaseName⟩, ?_, rfl, rfl, rfl, rfl⟩
          unfold SnakeCharmer.mergeInConfigFile SnakeCharmer.findConfigFile
          rw [if_neg hp, if_neg hp, hstat]
          simp only [if_true]
          unfold ViperState.readInConfig
          simp only [ViperState.addConfigPath, ViperState.setConfigName, Option.getD_some]
          rw [hread]
      | none =>
        rw [hcfu] at h
        simp only at h
        cases hsearch : searchConfig fsys (vpr.configPaths ++ [sch.configFilePath])
            sch.configFileBaseName with
        | none =>
          rw [hsearch] at h
          exact Except.noConfusion h
        | some fm =>
          obtain ⟨f, m⟩ := fm
          rw [hsearch] at h
          simp only [if_true, Except.ok.injEq] at h
          subst h
          refine ⟨⟨vpr.defaults, m, vpr.envBinds, vpr.pflagBinds, some f, vpr.configTypeSet,
              vpr.configPaths ++ [sch.configFilePath] ++ [sch.configFilePath],
              some sch.configFileBaseName⟩, ?_, rfl, rfl, rfl, rfl⟩
          unfold SnakeCharmer.mergeInConfigFile SnakeCharmer.findConfigFile
          rw [if_neg hp, if_neg hp, hstat]
          simp only [if_true]
          unfold ViperState.readInConfig
          simp only [ViperState.addConfigPath, ViperState.setConfigName, Option.getD_some]
          rw [searchConfig_read hsearch]
    | file =>
      rw [hstat] at h
      by_cases hext : ((fileExtOf sch.configFilePath).length == 0) = true
      · rw [if_pos hext] at h
        simp only at h
        unfold ViperState.readInConfig at h
        simp only [ViperState.setConfigType, ViperState.setConfigFile] at h
        cases hread : fsys.read sch.configFilePath with
        | none =>
          rw [hread] at h
          exact Except.noConfusion h
        | some m =>
          rw [hread] at h
          simp only [if_true, Except.ok.injEq] at h
          subst h
          refine ⟨⟨vpr.defaults, m, vpr.envBinds, vpr.pflagBinds, some sch.configFilePath,
              some sch.configFileType, vpr.configPaths, vpr.configName⟩, ?_, rfl, rfl, rfl, rfl⟩
          unfold SnakeCharmer.mergeInConfigFile SnakeCharmer.findConfigFile
          rw [if_neg hp, if_neg hp, hstat, if_pos hext]
          simp only [if_true]
          unfold ViperState.readInConfig
          simp only [ViperState.setConfigType, ViperState.setConfigFile]
          rw [hread]
      · rw [if_neg hext] at h
        by_cases hsup : fileExtSupported (fileExtOf sch.configFilePath) = true
        · rw [if_pos hsup] at h
          simp only at h
          unfold ViperState.readInConfig at h
          simp only [ViperState.setConfigFile] at h
          cases hread : fsys.read sch.configFilePath with
          | none =>
            rw [hread] at h
            exact Except.noConfusion h
          | some m =>
            rw [hread] at h
            simp only [if_true, Except.ok.injEq] at h
            subst h
            refine ⟨⟨vpr.defaults, m, vpr.envBinds, vpr.pflagBinds, some sch.configFilePath,
              vpr.configTypeSet, vpr.configPaths, vpr.configName⟩, ?_, rfl, rfl, rfl, rfl⟩
            unfold SnakeCharmer.mergeInConfigFile SnakeCharmer.findConfigFile
            rw [if_neg hp, if_neg hp, hstat, if_neg hext, if_pos hsup]
            simp only [if_true]
            unfold ViperState.readInConfig
            simp only [ViperState.setConfigFile]
            rw [hread]
        · rw [if_neg hsup] at h
          simp only at h
          unfold ViperState.readInConfig at h
          simp only [ViperState.setConfigType, ViperState.setConfigFile] at h
          cases hread : fsys.read sch.configFilePath with
          | none =>
            rw [hread] at h
            exact Except.noConfusion h
          | some m =>
            rw [hread] at h
            simp only [if_true, Except.ok.injEq] at h
            subst h
            refine ⟨⟨vpr.defaults, m, vpr.envBinds, vpr.pflagBinds, some sch.configFilePath,
              some sch.configFileType, vpr.configPaths, vpr.configName⟩, ?_, rfl, rfl, rfl, rfl⟩
            unfold SnakeCharmer.mergeInConfigFile SnakeCharmer.findConfigFile
            rw [if_neg hp, if_neg hp, hstat, if_neg hext, if_neg hsup]
            simp only [if_true]
            unfold ViperState.readInConfig
            simp only [ViperState.setConfigType, ViperState.setConfigFile]
            rw [hread]

/-- C7: resolution is idempotent — if the resolve operation succeeds
and decodes `r`, running it again on the engine it returned, with the
same file system, environment, flag values and defaults, succeeds and
decodes the same `r`. -/
theorem unmarshal_idempotent (sch sch1 : SnakeCharmer) (fsys : FileSystem) (env : EnvMap)
    (r : List (String × Leaf)) (h : sch.UnmarshalExact fsys env = .ok (sch1, r)) :
    ∃ sch2, sch1.UnmarshalExact fsys env = .ok (sch2, r) := by
  obtain ⟨rs, ftn, etn, fhtn, cft, cfp, cfbn, vps, cmds, dco, iuf⟩ := sch
  cases cmds with
  | none => exact Except.noConfusion h
  | some cmd =>
  cases vps with
  | none => exact Except.noConfusion h
  | some vpr =>
  cases rs with
  | none => exact Except.noConfusion h
  | some rsv =>
  cases rsv with
  | nonPtr t => exact Except.noConfusion h
  | nilPtr t => exact Except.noConfusion h
  | ptrToNonStruct t => exact Except.noConfusion h
  | ptrToStruct tc flds =>
    unfold SnakeCharmer.UnmarshalExact at h
    simp only [cfgOf] at h
    by_cases hp : cfp.length > 0
    · rw [if_pos hp] at h
      split at h
      · exact Except.noConfusion h
      · rename_i vpr1 hm
        split at h
        · exact Except.noConfusion h
        · rename_i r' hd
          simp only [Except.ok.injEq, Prod.mk.injEq] at h
          obtain ⟨hsch1, hr⟩ := h
          subst hr
          subst hsch1
          obtain ⟨vpr2, hm2, hdef, hconf, henv, hpf⟩ := merge_again _ vpr vpr1 fsys hm
          apply Exists.intro
          unfold SnakeCharmer.UnmarshalExact
          simp only [cfgOf]
          rw [if_pos hp]
          unfold SnakeCharmer.mergeInConfigFile SnakeCharmer.findConfigFile at hm2 ⊢
          simp only at hm2 ⊢
          rw [hm2]
          simp only
          rw [viperUnmarshalExact_congr ⟨ftn, etn, fhtn, iuf⟩ flds cmd env hdef hconf henv hpf,
            hd]
    · rw [if_neg hp] at h
      simp only at h
      split at h
      · exact Except.noConfusion h
      · rename_i r' hd
        simp only [Except.ok.injEq, Prod.mk.injEq] at h
        obtain ⟨hsch1, hr⟩ := h
        subst hr
        subst hsch1
        apply Exists.intro
        unfold SnakeCharmer.UnmarshalExact
        simp only [cfgOf]
        rw [if_neg hp]
        simp only
        rw [hd]

/-- Witness for `unmarshal_idempotent`: the `Workers` engine after its
flags are bound, resolved under `WORKERS=512`, resolves to the same
decoded result when resolved again. -/
theorem unmarshal_idempotent_witness :
    ∃ sch2,
      SnakeCharmer.UnmarshalExact
        { workersCharmer with
            cmd := some (emptyCmd.addFlag "workers" (Leaf.vInt 128) "Number of workers to run")
            viper := some
              (((emptyViper.setDefault "workers" (Leaf.vInt 128)).bindPFlag
                "workers").bindEnv "workers" "WORKERS") }
        noFs [("WORKERS", "512")]
      = .ok (sch2, [("workers", Leaf.vInt 512)]) :=
  unmarshal_idempotent
    { workersCharmer with
        cmd := some (emptyCmd.addFlag "workers" (Leaf.vInt 128) "Number of workers to run")
        viper := some
          (((emptyViper.setDefault "workers" (Leaf.vInt 128)).bindPFlag
            "workers").bindEnv "workers" "WORKERS") }
    _ noFs [("WORKERS", "512")] [("workers", Leaf.vInt 512)] rfl

end Snakecharmer
